import Mathlib

/-!
Verification development for the personal expense tracker's ledger engine
(`src/main.py`).  The two SQLite tables `expenses` and `credits` are embedded
as lists of rows together with the `AUTOINCREMENT` counter; each tool function
of the source is translated into a pure state-passing function returning the
new ledger state and the structured result the tool reports.  Dates are TEXT
compared under SQLite's BINARY collation, embedded as codepoint-lexicographic
comparison of the character sequences; `REAL` amounts are embedded as exact
rationals.
-/

/-- Lexicographic comparison of character sequences by codepoint, the order
SQLite's BINARY collation induces on UTF-8 encoded TEXT values. -/
def charsLe : List Char → List Char → Bool
  | [], _ => true
  | _ :: _, [] => false
  | a :: as, b :: bs =>
    if a.toNat < b.toNat then true
    else if b.toNat < a.toNat then false
    else charsLe as bs

/-- String comparison used by `date BETWEEN ? AND ?` and `ORDER BY category`. -/
def strLe (s t : String) : Bool := charsLe s.data t.data

/-- The string order as a relation, for sorting. -/
def strOrd (a b : String) : Prop := strLe a b = true

instance : DecidableRel strOrd := fun a b => inferInstanceAs (Decidable (strLe a b = true))

/-- One row of the `expenses` or `credits` table: `id INTEGER PRIMARY KEY
AUTOINCREMENT`, `date TEXT`, `amount REAL`, `category TEXT`,
`subcategory TEXT`, `note TEXT`. -/
structure Row where
  id : Nat
  date : String
  amount : Rat
  category : String
  subcategory : String
  note : String
deriving DecidableEq

/-- State of one table: its rows plus the AUTOINCREMENT counter that assigns
the next inserted id. -/
structure Ledger where
  rows : List Row
  nextId : Nat
deriving DecidableEq

/-- Invariant maintained by SQLite AUTOINCREMENT: every stored id is smaller
than the next id to be assigned (ids are never reused after deletion). -/
def Ledger.WF (l : Ledger) : Prop := ∀ r ∈ l.rows, r.id < l.nextId

/-- Structured result a tool call reports: `{"status": "ok", ...}` or
`{"status": "error", ...}` with its human-readable message. -/
inductive ToolResult where
  | ok (message : String)
  | error (message : String)
deriving DecidableEq

/-- Row ordering used by `ORDER BY id ASC`. -/
def idOrd (a b : Row) : Prop := a.id ≤ b.id

instance : DecidableRel idOrd := fun a b => Nat.decLe a.id b.id

/-- The `WHERE date BETWEEN ? AND ?` predicate: inclusive on both ends. -/
def inDateRange (r : Row) (start_date end_date : String) : Bool :=
  strLe start_date r.date && strLe r.date end_date

/-- The criteria-delete `WHERE` clause of `remove_expenses` / `remove_credits`:
exact equality on all five non-id fields. -/
def matchesCriteria (r : Row) (date : String) (amount : Rat)
    (category subcategory note : String) : Bool :=
  decide (r.date = date) && decide (r.amount = amount) &&
  decide (r.category = category) && decide (r.subcategory = subcategory) &&
  decide (r.note = note)

/-- `add_expense`: INSERT assigns the AUTOINCREMENT id and the tool returns
`{"status": "ok", "id": cur.lastrowid}`; the assigned id is the second
component. -/
def add_expense (l : Ledger) (date : String) (amount : Rat)
    (category subcategory note : String) : Ledger × Nat :=
  ({ rows := l.rows ++
      [{ id := l.nextId, date := date, amount := amount, category := category,
         subcategory := subcategory, note := note }],
     nextId := l.nextId + 1 }, l.nextId)

/-- Rows of the table whose date lies in the inclusive range (the shared
`WHERE date BETWEEN ? AND ?` clause). -/
def rangeRows (l : Ledger) (start_date end_date : String) : List Row :=
  l.rows.filter (fun r => inDateRange r start_date end_date)

/-- `list_expenses`: SELECT rows with date in the inclusive range,
`ORDER BY id ASC`. -/
def list_expenses (l : Ledger) (start_date end_date : String) : List Row :=
  List.insertionSort idOrd (rangeRows l start_date end_date)

/-- `list_credits`: identical query against the `credits` table. -/
def list_credits (l : Ledger) (start_date end_date : String) : List Row :=
  List.insertionSort idOrd (rangeRows l start_date end_date)

/-- `remove_expenses`: DELETE all rows matching every field exactly; report
the deleted count when positive, otherwise an error message. -/
def remove_expenses (l : Ledger) (date : String) (amount : Rat)
    (category subcategory note : String) : Ledger × ToolResult :=
  let rowcount :=
    l.rows.countP (fun r => matchesCriteria r date amount category subcategory note)
  let kept :=
    l.rows.filter (fun r => !matchesCriteria r date amount category subcategory note)
  if 0 < rowcount then
    ({ l with rows := kept }, ToolResult.ok s!"Deleted {rowcount} expense(s)")
  else
    ({ l with rows := kept }, ToolResult.error "No matching expenses found")

/-- `remove_credits`: same DELETE against the `credits` table, with the
credit-flavoured messages. -/
def remove_credits (l : Ledger) (date : String) (amount : Rat)
    (category subcategory note : String) : Ledger × ToolResult :=
  let rowcount :=
    l.rows.countP (fun r => matchesCriteria r date amount category subcategory note)
  let kept :=
    l.rows.filter (fun r => !matchesCriteria r date amount category subcategory note)
  if 0 < rowcount then
    ({ l with rows := kept }, ToolResult.ok s!"Deleted {rowcount} credit(s)")
  else
    ({ l with rows := kept }, ToolResult.error "No matching credits found")

/-- One `field = ?` assignment appended to `update_fields` by the edit
tools, in the order the source checks the five parameters. -/
inductive FieldAssign where
  | setDate (v : String)
  | setAmount (v : Rat)
  | setCategory (v : String)
  | setSubcategory (v : String)
  | setNote (v : String)
deriving DecidableEq

/-- The `update_fields` list the edit tools build: one assignment per
parameter that `is not None`, in declaration order
(date, amount, category, subcategory, note). -/
def buildUpdateFields (date : Option String) (amount : Option Rat)
    (category subcategory note : Option String) : List FieldAssign :=
  (match date with | some v => [FieldAssign.setDate v] | none => []) ++
  (match amount with | some v => [FieldAssign.setAmount v] | none => []) ++
  (match category with | some v => [FieldAssign.setCategory v] | none => []) ++
  (match subcategory with | some v => [FieldAssign.setSubcategory v] | none => []) ++
  (match note with | some v => [FieldAssign.setNote v] | none => [])

/-- Effect of a single `field = ?` assignment on a row. -/
def applyAssign (r : Row) : FieldAssign → Row
  | FieldAssign.setDate v => { r with date := v }
  | FieldAssign.setAmount v => { r with amount := v }
  | FieldAssign.setCategory v => { r with category := v }
  | FieldAssign.setSubcategory v => { r with subcategory := v }
  | FieldAssign.setNote v => { r with note := v }

/-- Effect of the whole `SET` clause on a row: assignments applied left to
right. -/
def applyAssigns (r : Row) (fs : List FieldAssign) : Row := fs.foldl applyAssign r

/-- `edit_expenses`: build `update_fields` from the parameters that are not
None, reject an empty update set before touching the store, then run
`UPDATE expenses SET ... WHERE id = ?` and report by the statement's
rowcount. -/
def edit_expenses (l : Ledger) (expense_id : Nat) (date : Option String)
    (amount : Option Rat) (category subcategory note : Option String) :
    Ledger × ToolResult :=
  let update_fields := buildUpdateFields date amount category subcategory note
  if update_fields = [] then
    (l, ToolResult.error "No fields provided to update")
  else
    let rowcount := l.rows.countP (fun r => decide (r.id = expense_id))
    let newRows :=
      l.rows.map (fun r => if r.id = expense_id then applyAssigns r update_fields else r)
    if 0 < rowcount then
      ({ l with rows := newRows },
        ToolResult.ok s!"Expense {expense_id} updated successfully")
    else
      ({ l with rows := newRows },
        ToolResult.error s!"Expense {expense_id} not found")

/-- `edit_credits`: same UPDATE against the `credits` table, with the
credit-flavoured messages. -/
def edit_credits (l : Ledger) (credit_id : Nat) (date : Option String)
    (amount : Option Rat) (category subcategory note : Option String) :
    Ledger × ToolResult :=
  let update_fields := buildUpdateFields date amount category subcategory note
  if update_fields = [] then
    (l, ToolResult.error "No fields provided to update")
  else
    let rowcount := l.rows.countP (fun r => decide (r.id = credit_id))
    let newRows :=
      l.rows.map (fun r => if r.id = credit_id then applyAssigns r update_fields else r)
    if 0 < rowcount then
      ({ l with rows := newRows },
        ToolResult.ok s!"Credit {credit_id} updated successfully")
    else
      ({ l with rows := newRows },
        ToolResult.error s!"Credit {credit_id} not found")

/-- Python truthiness of the `category` parameter of the summarize tools
(`if category:`): None and the empty string are falsy. -/
def pyTruthy : Option String → Bool
  | none => false
  | some s => !(decide (s = ""))

/-- Rows selected by the summarize query after the optional
`AND category = ?` clause, which is appended only when `category` is
truthy. -/
def selectRows (l : Ledger) (start_date end_date : String)
    (category : Option String) : List Row :=
  let base := rangeRows l start_date end_date
  if pyTruthy category then
    base.filter (fun r => decide (some r.category = category))
  else base

/-- `GROUP BY category ORDER BY category ASC` with `SUM(amount)` per group:
the distinct categories of the selected rows, sorted ascending, each paired
with the sum of the amounts of its rows. -/
def groupTotals (sel : List Row) : List (String × Rat) :=
  (List.insertionSort strOrd (sel.map Row.category).dedup).map
    (fun c => (c, ((sel.filter (fun r => decide (r.category = c))).map Row.amount).sum))

/-- `summarize`: per-category totals of the expenses in the inclusive date
range, optionally restricted by a truthy `category` argument. -/
def summarize (l : Ledger) (start_date end_date : String)
    (category : Option String) : List (String × Rat) :=
  groupTotals (selectRows l start_date end_date category)

/-- `summarize_credit`: identical query against the `credits` table. -/
def summarize_credit (l : Ledger) (start_date end_date : String)
    (category : Option String) : List (String × Rat) :=
  groupTotals (selectRows l start_date end_date category)

/-- Call-protocol layer for `remove_expenses(date, amount, category,
subcategory="", note="")`: an omitted keyword argument takes the default
empty string. -/
def remove_expenses_call (l : Ledger) (date : String) (amount : Rat)
    (category : String) (subcategory note : Option String) : Ledger × ToolResult :=
  remove_expenses l date amount category (subcategory.getD "") (note.getD "")

/-- Call-protocol layer for `remove_credits`, same defaults. -/
def remove_credits_call (l : Ledger) (date : String) (amount : Rat)
    (category : String) (subcategory note : Option String) : Ledger × ToolResult :=
  remove_credits l date amount category (subcategory.getD "") (note.getD "")

/-- State of one keyword argument at a call site of the edit tools: left
out, explicitly passed as null/None, or passed a value. -/
inductive CallArg (α : Type) where
  | omitted : CallArg α
  | null : CallArg α
  | value (v : α) : CallArg α
deriving DecidableEq

/-- Python keyword-argument protocol for a parameter declared `x=None`: an
omitted argument takes the default None and an explicitly passed null is
None, so both reach the function body as the same value. -/
def CallArg.toPy {α : Type} : CallArg α → Option α
  | CallArg.omitted => none
  | CallArg.null => none
  | CallArg.value v => some v

/-- Replace an explicitly-null argument by an omitted one, leaving the
other argument states unchanged. -/
def CallArg.nullToOmitted {α : Type} : CallArg α → CallArg α
  | CallArg.null => CallArg.omitted
  | x => x

/-- Call-protocol layer for `edit_expenses(expense_id, date=None, amount=None,
category=None, subcategory=None, note=None)`. -/
def edit_expenses_call (l : Ledger) (expense_id : Nat) (date : CallArg String)
    (amount : CallArg Rat) (category subcategory note : CallArg String) :
    Ledger × ToolResult :=
  edit_expenses l expense_id date.toPy amount.toPy category.toPy
    subcategory.toPy note.toPy

/-- Call-protocol layer for `edit_credits`. -/
def edit_credits_call (l : Ledger) (credit_id : Nat) (date : CallArg String)
    (amount : CallArg Rat) (category subcategory note : CallArg String) :
    Ledger × ToolResult :=
  edit_credits l credit_id date.toPy amount.toPy category.toPy
    subcategory.toPy note.toPy

/-! ## Order-theoretic facts about the embedded collation and id order -/

/-- Unfolding of the character-sequence comparison on two cons cells. -/
theorem charsLe_cons (a b : Char) (as bs : List Char) :
    charsLe (a :: as) (b :: bs) = true ↔
      (a.toNat < b.toNat ∨ (a.toNat = b.toNat ∧ charsLe as bs = true)) := by
  simp only [charsLe]
  by_cases h1 : a.toNat < b.toNat
  · simp [h1]
  · by_cases h2 : b.toNat < a.toNat
    · simp [h1, h2]
      omega
    · have he : a.toNat = b.toNat := by omega
      simp [h1, h2, he]

/-- The collation order is total. -/
theorem charsLe_total (as : List Char) : ∀ bs : List Char,
    charsLe as bs = true ∨ charsLe bs as = true := by
  induction as with
  | nil => intro bs; left; rfl
  | cons a as ih =>
    intro bs
    cases bs with
    | nil => right; rfl
    | cons b bs =>
      rw [charsLe_cons, charsLe_cons]
      rcases Nat.lt_trichotomy a.toNat b.toNat with h | h | h
      · left; left; exact h
      · rcases ih bs with hr | hr
        · left; right; exact ⟨h, hr⟩
        · right; right; exact ⟨h.symm, hr⟩
      · right; left; exact h

/-- The collation order is transitive. -/
theorem charsLe_trans : ∀ {as bs cs : List Char},
    charsLe as bs = true → charsLe bs cs = true → charsLe as cs = true := by
  intro as
  induction as with
  | nil => intro bs cs _ _; rfl
  | cons a as ih =>
    intro bs cs h1 h2
    cases bs with
    | nil => simp [charsLe] at h1
    | cons b bs =>
      cases cs with
      | nil => simp [charsLe] at h2
      | cons c cs =>
        rw [charsLe_cons] at h1 h2 ⊢
        rcases h1 with h1 | ⟨he1, hr1⟩
        · rcases h2 with h2 | ⟨he2, hr2⟩
          · left; omega
          · left; omega
        · rcases h2 with h2 | ⟨he2, hr2⟩
          · left; omega
          · right; exact ⟨by omega, ih hr1 hr2⟩

instance : IsTotal String strOrd := ⟨fun a b => charsLe_total a.data b.data⟩

instance : IsTrans String strOrd := ⟨fun _ _ _ => charsLe_trans⟩

instance : IsTotal Row idOrd := ⟨fun a b => Nat.le_total a.id b.id⟩

instance : IsTrans Row idOrd := ⟨fun _ _ _ h1 h2 => Nat.le_trans h1 h2⟩

/-! ## Characterization of the partial-update compiler -/

/-- Folding the generated `update_fields` list over a row sets exactly the
supplied fields and keeps every other field. -/
theorem applyAssigns_buildUpdateFields (r : Row) (d : Option String)
    (a : Option Rat) (c sc n : Option String) :
    applyAssigns r (buildUpdateFields d a c sc n) =
      { id := r.id, date := d.getD r.date, amount := a.getD r.amount,
        category := c.getD r.category, subcategory := sc.getD r.subcategory,
        note := n.getD r.note } := by
  cases d <;> cases a <;> cases c <;> cases sc <;> cases n <;> rfl

/-- The generated `update_fields` list is empty exactly when every parameter
was left at None. -/
theorem buildUpdateFields_eq_nil_iff (d : Option String) (a : Option Rat)
    (c sc n : Option String) :
    buildUpdateFields d a c sc n = [] ↔
      d = none ∧ a = none ∧ c = none ∧ sc = none ∧ n = none := by
  cases d <;> cases a <;> cases c <;> cases sc <;> cases n <;>
    simp [buildUpdateFields]

/-- Row-level effect of `edit_expenses` on the table: rows whose id differs
are untouched, the targeted rows get exactly the supplied fields. -/
theorem edit_expenses_rows (l : Ledger) (i : Nat) (d : Option String)
    (a : Option Rat) (c sc n : Option String) :
    (edit_expenses l i d a c sc n).1.rows =
      l.rows.map (fun r => if r.id = i then
        { id := r.id, date := d.getD r.date, amount := a.getD r.amount,
          category := c.getD r.category, subcategory := sc.getD r.subcategory,
          note := n.getD r.note } else r) := by
  by_cases hnil : buildUpdateFields d a c sc n = []
  · obtain ⟨hd, ha, hc, hsc, hn⟩ := (buildUpdateFields_eq_nil_iff d a c sc n).mp hnil
    subst hd; subst ha; subst hc; subst hsc; subst hn
    simp only [edit_expenses, hnil, if_pos, Option.getD_none]
    have hcongr : ∀ r ∈ l.rows,
        (if r.id = i then
          ({ id := r.id, date := r.date, amount := r.amount,
             category := r.category, subcategory := r.subcategory,
             note := r.note } : Row) else r) = id r := by
      intro r _
      split <;> rfl
    rw [List.map_congr_left hcongr, List.map_id]
  · simp only [edit_expenses, hnil, if_neg, if_false]
    have hcongr : ∀ r ∈ l.rows,
        (if r.id = i then applyAssigns r (buildUpdateFields d a c sc n) else r) =
        (if r.id = i then
          ({ id := r.id, date := d.getD r.date, amount := a.getD r.amount,
             category := c.getD r.category, subcategory := sc.getD r.subcategory,
             note := n.getD r.note } : Row) else r) := by
      intro r _
      split
      · exact applyAssigns_buildUpdateFields r d a c sc n
      · rfl
    split <;> simpa using List.map_congr_left hcongr

/-- `edit_expenses` never touches the AUTOINCREMENT counter. -/
theorem edit_expenses_nextId (l : Ledger) (i : Nat) (d : Option String)
    (a : Option Rat) (c sc n : Option String) :
    (edit_expenses l i d a c sc n).1.nextId = l.nextId := by
  simp only [edit_expenses]
  split
  · rfl
  · split <;> rfl

/-- Row-level effect of `edit_credits`, identical to the expense table. -/
theorem edit_credits_rows (l : Ledger) (i : Nat) (d : Option String)
    (a : Option Rat) (c sc n : Option String) :
    (edit_credits l i d a c sc n).1.rows =
      l.rows.map (fun r => if r.id = i then
        { id := r.id, date := d.getD r.date, amount := a.getD r.amount,
          category := c.getD r.category, subcategory := sc.getD r.subcategory,
          note := n.getD r.note } else r) := by
  by_cases hnil : buildUpdateFields d a c sc n = []
  · obtain ⟨hd, ha, hc, hsc, hn⟩ := (buildUpdateFields_eq_nil_iff d a c sc n).mp hnil
    subst hd; subst ha; subst hc; subst hsc; subst hn
    simp only [edit_credits, hnil, if_pos, Option.getD_none]
    have hcongr : ∀ r ∈ l.rows,
        (if r.id = i then
          ({ id := r.id, date := r.date, amount := r.amount,
             category := r.category, subcategory := r.subcategory,
             note := r.note } : Row) else r) = id r := by
      intro r _
      split <;> rfl
    rw [List.map_congr_left hcongr, List.map_id]
  · simp only [edit_credits, hnil, if_neg, if_false]
    have hcongr : ∀ r ∈ l.rows,
        (if r.id = i then applyAssigns r (buildUpdateFields d a c sc n) else r) =
        (if r.id = i then
          ({ id := r.id, date := d.getD r.date, amount := a.getD r.amount,
             category := c.getD r.category, subcategory := sc.getD r.subcategory,
             note := n.getD r.note } : Row) else r) := by
      intro r _
      split
      · exact applyAssigns_buildUpdateFields r d a c sc n
      · rfl
    split <;> simpa using List.map_congr_left hcongr

/-- `edit_credits` never touches the AUTOINCREMENT counter. -/
theorem edit_credits_nextId (l : Ledger) (i : Nat) (d : Option String)
    (a : Option Rat) (c sc n : Option String) :
    (edit_credits l i d a c sc n).1.nextId = l.nextId := by
  simp only [edit_credits]
  split
  · rfl
  · split <;> rfl

/-! ## Claim theorems -/

/-- C2: for every id and ledger state, calling an edit tool with an empty
update set returns the no-fields-provided validation error (the source
message reads "No fields provided to update"); the guard fires before any
store statement is issued, and the returned state is the unchanged ledger.
Holds for both tables. -/
theorem editFields_empty_update_guard (l : Ledger) (i : Nat) :
    edit_expenses l i none none none none none =
      (l, ToolResult.error "No fields provided to update") ∧
    edit_credits l i none none none none none =
      (l, ToolResult.error "No fields provided to update") :=
  ⟨rfl, rfl⟩

/-- Witness for C2 at a concrete ledger and id. -/
theorem editFields_empty_update_guard_witness :
    edit_expenses ⟨[⟨1, "2024-01-01", 5, "Food", "", ""⟩], 2⟩ 1
        none none none none none =
      (⟨[⟨1, "2024-01-01", 5, "Food", "", ""⟩], 2⟩,
        ToolResult.error "No fields provided to update") ∧
    edit_credits ⟨[⟨1, "2024-01-01", 5, "Food", "", ""⟩], 2⟩ 1
        none none none none none =
      (⟨[⟨1, "2024-01-01", 5, "Food", "", ""⟩], 2⟩,
        ToolResult.error "No fields provided to update") :=
  editFields_empty_update_guard ⟨[⟨1, "2024-01-01", 5, "Food", "", ""⟩], 2⟩ 1

/-- C6: editing an id that no row carries, with a non-empty field set,
reports the not-found failure and returns the ledger completely unchanged;
the function always returns a structured result.  Holds for both tables. -/
theorem editFields_missing_id (l : Ledger) (i : Nat) (d : Option String)
    (a : Option Rat) (c sc n : Option String)
    (hne : ¬(d = none ∧ a = none ∧ c = none ∧ sc = none ∧ n = none))
    (hmiss : ∀ r ∈ l.rows, r.id ≠ i) :
    edit_expenses l i d a c sc n =
      (l, ToolResult.error s!"Expense {i} not found") ∧
    edit_credits l i d a c sc n =
      (l, ToolResult.error s!"Credit {i} not found") := by
  have hnil : ¬(buildUpdateFields d a c sc n = []) := by
    rw [buildUpdateFields_eq_nil_iff]
    exact hne
  have hcnt : l.rows.countP (fun r => decide (r.id = i)) = 0 := by
    rw [List.countP_eq_zero]
    intro r hr
    simpa using hmiss r hr
  have hmap :
      ∀ r ∈ l.rows,
        (if r.id = i then applyAssigns r (buildUpdateFields d a c sc n) else r) = id r := by
    intro r hr
    rw [if_neg (hmiss r hr)]
    rfl
  constructor
  · simp only [edit_expenses, if_neg hnil, hcnt, Nat.lt_irrefl, if_false,
      List.map_congr_left hmap, List.map_id]
  · simp only [edit_credits, if_neg hnil, hcnt, Nat.lt_irrefl, if_false,
      List.map_congr_left hmap, List.map_id]

/-- Witness for C6: editing id 2 in a ledger whose only row has id 1. -/
theorem editFields_missing_id_witness :
    edit_expenses ⟨[⟨1, "2024-01-01", 5, "Food", "", ""⟩], 2⟩ 2
        (some "2024-02-02") none none none none =
      (⟨[⟨1, "2024-01-01", 5, "Food", "", ""⟩], 2⟩,
        ToolResult.error "Expense 2 not found") ∧
    edit_credits ⟨[⟨1, "2024-01-01", 5, "Food", "", ""⟩], 2⟩ 2
        (some "2024-02-02") none none none none =
      (⟨[⟨1, "2024-01-01", 5, "Food", "", ""⟩], 2⟩,
        ToolResult.error "Credit 2 not found") :=
  editFields_missing_id ⟨[⟨1, "2024-01-01", 5, "Food", "", ""⟩], 2⟩ 2
    (some "2024-02-02") none none none none (by decide) (by decide)

/-- C3: with a non-empty update set, the edit tools set exactly the supplied
fields on the rows carrying the given id, keep every unsupplied field of
those rows, leave every other row and the id counter untouched, and report
success when such a row exists.  Holds for both tables. -/
theorem editFields_partial_update_isolation (l : Ledger) (i : Nat)
    (d : Option String) (a : Option Rat) (c sc n : Option String)
    (hne : ¬(d = none ∧ a = none ∧ c = none ∧ sc = none ∧ n = none)) :
    ((edit_expenses l i d a c sc n).1.rows =
       l.rows.map (fun r => if r.id = i then
         { id := r.id, date := d.getD r.date, amount := a.getD r.amount,
           category := c.getD r.category, subcategory := sc.getD r.subcategory,
           note := n.getD r.note } else r) ∧
     (edit_expenses l i d a c sc n).1.nextId = l.nextId ∧
     ((∃ r ∈ l.rows, r.id = i) →
       (edit_expenses l i d a c sc n).2 =
         ToolResult.ok s!"Expense {i} updated successfully")) ∧
    ((edit_credits l i d a c sc n).1.rows =
       l.rows.map (fun r => if r.id = i then
         { id := r.id, date := d.getD r.date, amount := a.getD r.amount,
           category := c.getD r.category, subcategory := sc.getD r.subcategory,
           note := n.getD r.note } else r) ∧
     (edit_credits l i d a c sc n).1.nextId = l.nextId ∧
     ((∃ r ∈ l.rows, r.id = i) →
       (edit_credits l i d a c sc n).2 =
         ToolResult.ok s!"Credit {i} updated successfully")) := by
  have hnil : ¬(buildUpdateFields d a c sc n = []) := by
    rw [buildUpdateFields_eq_nil_iff]
    exact hne
  refine ⟨⟨edit_expenses_rows l i d a c sc n, edit_expenses_nextId l i d a c sc n, ?_⟩,
    ⟨edit_credits_rows l i d a c sc n, edit_credits_nextId l i d a c sc n, ?_⟩⟩ <;>
  · intro hex
    have hcnt : 0 < l.rows.countP (fun r => decide (r.id = i)) := by
      rw [List.countP_pos_iff]
      obtain ⟨r, hr, hid⟩ := hex
      exact ⟨r, hr, by simpa using hid⟩
    first
      | simp only [edit_expenses, if_neg hnil, if_pos hcnt]
      | simp only [edit_credits, if_neg hnil, if_pos hcnt]

/-- Witness for C3: updating only the amount of the single row changes only
its amount. -/
theorem editFields_partial_update_isolation_witness :
    (edit_expenses ⟨[⟨1, "2024-01-01", 5, "Food", "Dining", "old"⟩], 2⟩ 1
        none (some 99) none none none).1.rows =
      [⟨1, "2024-01-01", 99, "Food", "Dining", "old"⟩] ∧
    (edit_expenses ⟨[⟨1, "2024-01-01", 5, "Food", "Dining", "old"⟩], 2⟩ 1
        none (some 99) none none none).2 =
      ToolResult.ok "Expense 1 updated successfully" := by
  have h := editFields_partial_update_isolation
    ⟨[⟨1, "2024-01-01", 5, "Food", "Dining", "old"⟩], 2⟩ 1
    none (some 99) none none none (by decide)
  exact ⟨h.1.1, h.1.2.2 ⟨⟨1, "2024-01-01", 5, "Food", "Dining", "old"⟩, by simp, rfl⟩⟩

/-- State effect of `remove_expenses`: the kept rows are exactly the rows
failing the criteria, and the id counter is untouched, in both report
branches. -/
theorem remove_expenses_state (l : Ledger) (date : String) (amount : Rat)
    (category subcategory note : String) :
    (remove_expenses l date amount category subcategory note).1 =
      { rows := l.rows.filter
          (fun r => !matchesCriteria r date amount category subcategory note),
        nextId := l.nextId } := by
  simp only [remove_expenses]
  split <;> rfl

/-- State effect of `remove_credits`, identical to the expense table. -/
theorem remove_credits_state (l : Ledger) (date : String) (amount : Rat)
    (category subcategory note : String) :
    (remove_credits l date amount category subcategory note).1 =
      { rows := l.rows.filter
          (fun r => !matchesCriteria r date amount category subcategory note),
        nextId := l.nextId } := by
  simp only [remove_credits]
  split <;> rfl

/-- C1: criteria delete removes exactly the rows equal to the supplied
values on all five fields, reports the deleted count when it is positive
and a no-matching-records failure when it is zero; deleting after inserting
two records with identical fields removes both and reports count 2.  Holds
for both tables. -/
theorem removeByCriteria_exact_delete (l : Ledger) (date : String) (amount : Rat)
    (category subcategory note : String) :
    ((remove_expenses l date amount category subcategory note).1 =
       { rows := l.rows.filter
           (fun r => !matchesCriteria r date amount category subcategory note),
         nextId := l.nextId } ∧
     (0 < l.rows.countP (fun r => matchesCriteria r date amount category subcategory note) →
       (remove_expenses l date amount category subcategory note).2 =
         ToolResult.ok ("Deleted " ++
           toString (l.rows.countP
             (fun r => matchesCriteria r date amount category subcategory note)) ++
           " expense(s)")) ∧
     (l.rows.countP (fun r => matchesCriteria r date amount category subcategory note) = 0 →
       (remove_expenses l date amount category subcategory note).2 =
         ToolResult.error "No matching expenses found")) ∧
    ((remove_credits l date amount category subcategory note).1 =
       { rows := l.rows.filter
           (fun r => !matchesCriteria r date amount category subcategory note),
         nextId := l.nextId } ∧
     (0 < l.rows.countP (fun r => matchesCriteria r date amount category subcategory note) →
       (remove_credits l date amount category subcategory note).2 =
         ToolResult.ok ("Deleted " ++
           toString (l.rows.countP
             (fun r => matchesCriteria r date amount category subcategory note)) ++
           " credit(s)")) ∧
     (l.rows.countP (fun r => matchesCriteria r date amount category subcategory note) = 0 →
       (remove_credits l date amount category subcategory note).2 =
         ToolResult.error "No matching credits found")) ∧
    remove_expenses
        ((add_expense ((add_expense ⟨[], 1⟩ "2024-01-05" 12 "Food" "Dining" "coffee").1)
          "2024-01-05" 12 "Food" "Dining" "coffee").1)
        "2024-01-05" 12 "Food" "Dining" "coffee" =
      (⟨[], 3⟩, ToolResult.ok "Deleted 2 expense(s)") := by
  refine ⟨⟨remove_expenses_state l date amount category subcategory note, ?_, ?_⟩,
    ⟨remove_credits_state l date amount category subcategory note, ?_, ?_⟩, ?_⟩
  · intro h
    simp only [remove_expenses]
    rw [if_pos h]
    rfl
  · intro h
    simp only [remove_expenses, h, Nat.lt_irrefl, if_false]
  · intro h
    simp only [remove_credits]
    rw [if_pos h]
    rfl
  · intro h
    simp only [remove_credits, h, Nat.lt_irrefl, if_false]
  · decide

/-- Witness for C1: deleting the single matching row reports count 1. -/
theorem removeByCriteria_exact_delete_witness :
    (remove_expenses ⟨[⟨7, "2024-01-05", 12, "Food", "", ""⟩], 8⟩
        "2024-01-05" 12 "Food" "" "").2 = ToolResult.ok "Deleted 1 expense(s)" :=
  (removeByCriteria_exact_delete ⟨[⟨7, "2024-01-05", 12, "Food", "", ""⟩], 8⟩
      "2024-01-05" 12 "Food" "" "").1.2.1 (by decide)

/-- C4: range listing returns exactly the rows whose date is lexically
within the inclusive bounds, ordered by ascending id, and the empty list —
not an error — when nothing matches; records dated exactly on either bound
are included, one day outside either bound excluded.  Holds for both
tables. -/
theorem listRange_inclusive_ordered (l : Ledger) (s e : String) :
    ((∀ r : Row, r ∈ list_expenses l s e ↔
        r ∈ l.rows ∧ strOrd s r.date ∧ strOrd r.date e) ∧
     (list_expenses l s e).Perm (rangeRows l s e) ∧
     List.Sorted idOrd (list_expenses l s e) ∧
     ((∀ r ∈ l.rows, inDateRange r s e = false) → list_expenses l s e = [])) ∧
    ((∀ r : Row, r ∈ list_credits l s e ↔
        r ∈ l.rows ∧ strOrd s r.date ∧ strOrd r.date e) ∧
     (list_credits l s e).Perm (rangeRows l s e) ∧
     List.Sorted idOrd (list_credits l s e) ∧
     ((∀ r ∈ l.rows, inDateRange r s e = false) → list_credits l s e = [])) ∧
    list_expenses
        ⟨[⟨1, "2024-01-10", 1, "A", "", ""⟩, ⟨2, "2024-01-20", 2, "B", "", ""⟩,
          ⟨3, "2024-01-09", 3, "C", "", ""⟩, ⟨4, "2024-01-21", 4, "D", "", ""⟩,
          ⟨5, "2024-01-15", 5, "E", "", ""⟩], 6⟩ "2024-01-10" "2024-01-20" =
      [⟨1, "2024-01-10", 1, "A", "", ""⟩, ⟨2, "2024-01-20", 2, "B", "", ""⟩,
       ⟨5, "2024-01-15", 5, "E", "", ""⟩] := by
  have hmem : ∀ r : Row, r ∈ list_expenses l s e ↔
      r ∈ l.rows ∧ strOrd s r.date ∧ strOrd r.date e := by
    intro r
    rw [list_expenses, List.mem_insertionSort, rangeRows, List.mem_filter]
    simp [inDateRange, strOrd, Bool.and_eq_true]
  refine ⟨⟨hmem, List.perm_insertionSort idOrd _, List.sorted_insertionSort idOrd _, ?_⟩,
    ⟨hmem, List.perm_insertionSort idOrd _, List.sorted_insertionSort idOrd _, ?_⟩, ?_⟩
  · intro h
    have hnil : rangeRows l s e = [] := by
      rw [rangeRows, List.filter_eq_nil_iff]
      intro r hr
      simp [h r hr]
    rw [list_expenses, hnil]
    rfl
  · intro h
    have hnil : rangeRows l s e = [] := by
      rw [rangeRows, List.filter_eq_nil_iff]
      intro r hr
      simp [h r hr]
    rw [list_credits, hnil]
    rfl
  · decide

/-- Witness for C4: a range matching no row yields the empty list. -/
theorem listRange_inclusive_ordered_witness :
    list_expenses ⟨[⟨1, "2024-02-01", 1, "A", "", ""⟩], 2⟩ "2024-01-01" "2024-01-31" = [] :=
  (listRange_inclusive_ordered ⟨[⟨1, "2024-02-01", 1, "A", "", ""⟩], 2⟩
      "2024-01-01" "2024-01-31").1.2.2.2 (by decide)

/-- C7: inserting a valid record (non-empty category) into a well-formed
ledger and then listing any date window containing its date returns exactly
one record equal to the input augmented with the id the insert assigned. -/
theorem insert_then_list_unique (l : Ledger) (d : String) (a : Rat)
    (c sc n : String) (hWF : l.WF) (hc : c ≠ "")
    (s e : String) (hs : strOrd s d) (he : strOrd d e) :
    (list_expenses (add_expense l d a c sc n).1 s e).countP
      (fun r => decide (r =
        { id := (add_expense l d a c sc n).2, date := d, amount := a,
          category := c, subcategory := sc, note := n })) = 1 := by
  have hs' : strLe s d = true := hs
  have he' : strLe d e = true := he
  have hsnd : (add_expense l d a c sc n).2 = l.nextId := rfl
  have hfst : (add_expense l d a c sc n).1.rows =
      l.rows ++ [{ id := l.nextId, date := d, amount := a, category := c,
                   subcategory := sc, note := n }] := rfl
  rw [hsnd, list_expenses, List.Perm.countP_eq _ (List.perm_insertionSort idOrd _),
    rangeRows, hfst, List.filter_append, List.countP_append]
  have hpnew : inDateRange
      { id := l.nextId, date := d, amount := a, category := c,
        subcategory := sc, note := n } s e = true := by
    simp [inDateRange, hs', he']
  have h1 : (l.rows.filter (fun r => inDateRange r s e)).countP
      (fun r => decide (r =
        { id := l.nextId, date := d, amount := a, category := c,
          subcategory := sc, note := n })) = 0 := by
    rw [List.countP_eq_zero]
    intro r hr
    have hlt := hWF r (List.mem_filter.mp hr).1
    simp only [decide_eq_true_eq]
    intro heq
    rw [heq] at hlt
    exact Nat.lt_irrefl _ hlt
  rw [h1]
  simp [hpnew]

/-- Witness for C7: inserting into the empty ledger and listing a window
around the date finds the new record exactly once. -/
theorem insert_then_list_unique_witness :
    (list_expenses (add_expense ⟨[], 1⟩ "2024-01-05" 12 "Food" "Dining" "coffee").1
        "2024-01-01" "2024-01-31").countP
      (fun r => decide (r =
        { id := (add_expense ⟨[], 1⟩ "2024-01-05" 12 "Food" "Dining" "coffee").2,
          date := "2024-01-05", amount := 12, category := "Food",
          subcategory := "Dining", note := "coffee" })) = 1 :=
  insert_then_list_unique ⟨[], 1⟩ "2024-01-05" 12 "Food" "Dining" "coffee"
    (by simp [Ledger.WF]) (by decide) "2024-01-01" "2024-01-31" (by decide) (by decide)

/-! ## Grouping facts for the summarize tools -/

/-- The group keys of `groupTotals` are the sorted deduplicated
categories. -/
theorem groupTotals_keys (sel : List Row) :
    (groupTotals sel).map Prod.fst =
      List.insertionSort strOrd (sel.map Row.category).dedup := by
  rw [groupTotals, List.map_map]
  exact List.map_id' _

/-- A category appears among the group keys exactly when some selected row
carries it. -/
theorem groupTotals_mem_keys (sel : List Row) (c : String) :
    c ∈ (groupTotals sel).map Prod.fst ↔ ∃ r ∈ sel, r.category = c := by
  rw [groupTotals_keys, List.mem_insertionSort, List.mem_dedup, List.mem_map]

/-- Every reported pair carries the sum of the amounts of the selected rows
of its category, and its key occurs among the selected rows. -/
theorem groupTotals_sums (sel : List Row) :
    ∀ p ∈ groupTotals sel,
      p.2 = ((sel.filter (fun r => decide (r.category = p.1))).map Row.amount).sum ∧
      ∃ r ∈ sel, r.category = p.1 := by
  intro p hp
  rw [groupTotals] at hp
  obtain ⟨c, hc, hfc⟩ := List.mem_map.mp hp
  subst hfc
  refine ⟨rfl, ?_⟩
  have hc2 : c ∈ (sel.map Row.category).dedup := (List.mem_insertionSort _).mp hc
  obtain ⟨r, hr, hrc⟩ := List.mem_map.mp (List.mem_dedup.mp hc2)
  exact ⟨r, hr, hrc⟩

/-- The group list is strictly ascending in the category key. -/
theorem groupTotals_pairwise (sel : List Row) :
    List.Pairwise (fun p q : String × Rat => strOrd p.1 q.1 ∧ p.1 ≠ q.1)
      (groupTotals sel) := by
  rw [groupTotals, List.pairwise_map]
  have hsorted : List.Pairwise strOrd
      (List.insertionSort strOrd (sel.map Row.category).dedup) :=
    List.sorted_insertionSort strOrd _
  have hnodup : (List.insertionSort strOrd (sel.map Row.category).dedup).Nodup :=
    (List.perm_insertionSort strOrd _).symm.nodup (List.nodup_dedup _)
  refine List.Pairwise.imp ?_ (List.Pairwise.and hsorted hnodup)
  intro a b h
  exact h

/-- A list all of whose members equal one value dedups to at most one
element. -/
theorem dedup_length_le_one {l : List String} {c : String}
    (h : ∀ x ∈ l, x = c) : l.dedup.length ≤ 1 := by
  rcases hd : l.dedup with _ | ⟨x, _ | ⟨y, rest⟩⟩
  · simp
  · simp
  · exfalso
    have hx : x ∈ l.dedup := by
      rw [hd]
      exact List.mem_cons_self _ _
    have hy : y ∈ l.dedup := by
      rw [hd]
      exact List.mem_cons_of_mem _ (List.mem_cons_self _ _)
    have hxc : x = c := h x (List.mem_dedup.mp hx)
    have hyc : y = c := h y (List.mem_dedup.mp hy)
    have hnod := List.nodup_dedup l
    rw [hd, List.nodup_cons] at hnod
    refine hnod.1 ?_
    rw [hxc, hyc]
    exact List.mem_cons_self _ _

/-- With a truthy category filter, every selected row carries that
category. -/
theorem selectRows_all_eq (l : Ledger) (s e : String) (c : String)
    (hc : ¬(c = "")) :
    ∀ r ∈ selectRows l s e (some c), r.category = c := by
  intro r hr
  have htr : pyTruthy (some c) = true := by
    simp [pyTruthy, hc]
  simp only [selectRows, htr, if_true] at hr
  have := (List.mem_filter.mp hr).2
  simpa using this

/-- C5 (amended): summarize groups the rows of the inclusive date range by
category, reports the per-category sum of amounts, and orders the groups
strictly ascending by category name; for every supplied **non-empty**
category value the result is restricted to that category and has at most
one row (a supplied empty string is falsy in `if category:` and applies no
restriction); no rows in range yield the empty sequence; the concrete
Food/Transport example holds.  Holds for both tables. -/
theorem summarize_groups_sums_ordered (l : Ledger) (s e : String)
    (cat : Option String) :
    ((∀ p ∈ summarize l s e cat,
        p.2 = (((selectRows l s e cat).filter
          (fun r => decide (r.category = p.1))).map Row.amount).sum) ∧
     (∀ c : String,
        c ∈ (summarize l s e cat).map Prod.fst ↔
          ∃ r ∈ selectRows l s e cat, r.category = c) ∧
     List.Pairwise (fun p q : String × Rat => strOrd p.1 q.1 ∧ p.1 ≠ q.1)
       (summarize l s e cat) ∧
     (∀ c' : String, cat = some c' → ¬(c' = "") →
        (∀ p ∈ summarize l s e cat, p.1 = c') ∧
        (summarize l s e cat).length ≤ 1) ∧
     (rangeRows l s e = [] → summarize l s e cat = [])) ∧
    ((∀ p ∈ summarize_credit l s e cat,
        p.2 = (((selectRows l s e cat).filter
          (fun r => decide (r.category = p.1))).map Row.amount).sum) ∧
     (∀ c : String,
        c ∈ (summarize_credit l s e cat).map Prod.fst ↔
          ∃ r ∈ selectRows l s e cat, r.category = c) ∧
     List.Pairwise (fun p q : String × Rat => strOrd p.1 q.1 ∧ p.1 ≠ q.1)
       (summarize_credit l s e cat) ∧
     (∀ c' : String, cat = some c' → ¬(c' = "") →
        (∀ p ∈ summarize_credit l s e cat, p.1 = c') ∧
        (summarize_credit l s e cat).length ≤ 1) ∧
     (rangeRows l s e = [] → summarize_credit l s e cat = [])) ∧
    summarize ⟨[⟨1, "2024-01-03", 10, "Food", "", ""⟩,
                ⟨2, "2024-01-04", 5, "Food", "", ""⟩,
                ⟨3, "2024-01-05", 3, "Transport", "", ""⟩], 4⟩
        "2024-01-01" "2024-01-31" none = [("Food", 15), ("Transport", 3)] := by
  have hsums : ∀ p ∈ summarize l s e cat,
      p.2 = (((selectRows l s e cat).filter
        (fun r => decide (r.category = p.1))).map Row.amount).sum :=
    fun p hp => (groupTotals_sums (selectRows l s e cat) p hp).1
  have hkeys : ∀ c : String,
      c ∈ (summarize l s e cat).map Prod.fst ↔
        ∃ r ∈ selectRows l s e cat, r.category = c :=
    fun c => groupTotals_mem_keys (selectRows l s e cat) c
  have hpair : List.Pairwise (fun p q : String × Rat => strOrd p.1 q.1 ∧ p.1 ≠ q.1)
      (summarize l s e cat) := groupTotals_pairwise (selectRows l s e cat)
  have hone : ∀ c' : String, cat = some c' → ¬(c' = "") →
      (∀ p ∈ summarize l s e cat, p.1 = c') ∧
      (summarize l s e cat).length ≤ 1 := by
    intro c' hcat hc'
    subst hcat
    have hall := selectRows_all_eq l s e c' hc'
    constructor
    · intro p hp
      obtain ⟨-, r, hr, hrc⟩ := groupTotals_sums (selectRows l s e (some c')) p hp
      rw [← hrc]
      exact (hall r hr).symm ▸ (hall r hr)
    · have hlm : (summarize l s e (some c')).length =
          ((summarize l s e (some c')).map Prod.fst).length :=
        (List.length_map _ _).symm
      rw [hlm, summarize, groupTotals_keys,
        (List.perm_insertionSort strOrd _).length_eq]
      refine @dedup_length_le_one _ c' ?_
      intro x hx
      obtain ⟨r, hr, hxc⟩ := List.mem_map.mp hx
      rw [← hxc]
      exact hall r hr
  have hnil : rangeRows l s e = [] → summarize l s e cat = [] := by
    intro hempty
    have hsel : selectRows l s e cat = [] := by
      simp only [selectRows, hempty]
      cases pyTruthy cat <;> simp
    rw [summarize, hsel]
    rfl
  refine ⟨⟨hsums, hkeys, hpair, hone, hnil⟩,
    ⟨hsums, hkeys, hpair, hone, hnil⟩, ?_⟩
  have hconcrete : summarize ⟨[⟨1, "2024-01-03", 10, "Food", "", ""⟩,
                               ⟨2, "2024-01-04", 5, "Food", "", ""⟩,
                               ⟨3, "2024-01-05", 3, "Transport", "", ""⟩], 4⟩
      "2024-01-01" "2024-01-31" none =
      [("Food", (10 : Rat) + (5 + 0)), ("Transport", (3 : Rat) + 0)] := rfl
  rw [hconcrete]
  norm_num

/-- Witness for C5 at a supplied non-empty category: at most one group is
returned. -/
theorem summarize_groups_sums_ordered_witness :
    (summarize ⟨[⟨1, "2024-01-03", 10, "Food", "", ""⟩,
                 ⟨2, "2024-01-05", 3, "Transport", "", ""⟩], 3⟩
        "2024-01-01" "2024-01-31" (some "Food")).length ≤ 1 :=
  ((summarize_groups_sums_ordered ⟨[⟨1, "2024-01-03", 10, "Food", "", ""⟩,
      ⟨2, "2024-01-05", 3, "Transport", "", ""⟩], 3⟩
      "2024-01-01" "2024-01-31" (some "Food")).1.2.2.2.1 "Food" rfl (by decide)).2

/-- C5 counterexample: the empty string is a possible supplied value of the
optional category, yet the result is not restricted to one row, because
`if category:` is falsy on "" and the restriction clause is skipped. -/
theorem summarize_supplied_empty_counterexample :
    (summarize ⟨[⟨1, "2024-01-03", 10, "Food", "", ""⟩,
                 ⟨2, "2024-01-05", 3, "Transport", "", ""⟩], 3⟩
        "2024-01-01" "2024-01-31" (some "")).length = 2 ∧
    ¬((summarize ⟨[⟨1, "2024-01-03", 10, "Food", "", ""⟩,
                   ⟨2, "2024-01-05", 3, "Transport", "", ""⟩], 3⟩
        "2024-01-01" "2024-01-31" (some "")).length ≤ 1) := by
  constructor
  · decide
  · decide

/-- C10: supplying the empty string as the category argument is identical
to omitting it — both are falsy, the restriction clause is not appended,
and every category of the range is grouped and returned.  Holds for both
tables. -/
theorem summarize_empty_category_ignored (l : Ledger) (s e : String) :
    summarize l s e (some "") = summarize l s e none ∧
    summarize_credit l s e (some "") = summarize_credit l s e none ∧
    (∀ c : String,
      c ∈ (summarize l s e (some "")).map Prod.fst ↔
        ∃ r ∈ rangeRows l s e, r.category = c) := by
  refine ⟨rfl, rfl, ?_⟩
  intro c
  exact groupTotals_mem_keys (rangeRows l s e) c

/-- Witness for C10 at a concrete ledger. -/
theorem summarize_empty_category_ignored_witness :
    summarize ⟨[⟨1, "2024-01-03", 10, "Food", "", ""⟩], 2⟩
        "2024-01-01" "2024-01-31" (some "") =
      summarize ⟨[⟨1, "2024-01-03", 10, "Food", "", ""⟩], 2⟩
        "2024-01-01" "2024-01-31" none :=
  (summarize_empty_category_ignored ⟨[⟨1, "2024-01-03", 10, "Food", "", ""⟩], 2⟩
      "2024-01-01" "2024-01-31").1

/-- Routing a call argument through the Python None default collapses an
explicit null into the omitted state. -/
theorem CallArg.toPy_nullToOmitted {α : Type} (x : CallArg α) :
    x.nullToOmitted.toPy = x.toPy := by
  cases x <;> rfl

/-- C8 counterexample: a field explicitly supplied as null is not included
in the update.  It reaches the tool body as None — the same value as an
omitted argument — so supplying every field as null trips the empty-update
guard and changes nothing, where the claim demands the fields be set. -/
theorem editFields_null_counterexample :
    (CallArg.null : CallArg String).toPy = (CallArg.omitted : CallArg String).toPy ∧
    edit_expenses_call ⟨[⟨1, "2024-01-01", 5, "Food", "Groceries", "old"⟩], 2⟩ 1
        CallArg.null CallArg.null CallArg.null CallArg.null CallArg.null =
      (⟨[⟨1, "2024-01-01", 5, "Food", "Groceries", "old"⟩], 2⟩,
        ToolResult.error "No fields provided to update") :=
  ⟨rfl, rfl⟩

/-- C8 (amended): a field explicitly supplied with an empty value is a
distinct state from unset and is included in the update, while a field
explicitly supplied as null reaches the tool as None and is treated
exactly like an unset field, excluded from the update.  Holds for both
tables. -/
theorem editFields_null_empty_semantics :
    (∀ (l : Ledger) (i : Nat) (d : CallArg String) (a : CallArg Rat)
        (c sc n : CallArg String),
      edit_expenses_call l i d.nullToOmitted a.nullToOmitted c.nullToOmitted
          sc.nullToOmitted n.nullToOmitted = edit_expenses_call l i d a c sc n ∧
      edit_credits_call l i d.nullToOmitted a.nullToOmitted c.nullToOmitted
          sc.nullToOmitted n.nullToOmitted = edit_credits_call l i d a c sc n) ∧
    (∀ (l : Ledger) (i : Nat),
      (edit_expenses_call l i CallArg.omitted CallArg.omitted CallArg.omitted
          CallArg.omitted (CallArg.value "")).1.rows =
        l.rows.map (fun r => if r.id = i then { r with note := "" } else r) ∧
      (edit_credits_call l i CallArg.omitted CallArg.omitted CallArg.omitted
          CallArg.omitted (CallArg.value "")).1.rows =
        l.rows.map (fun r => if r.id = i then { r with note := "" } else r)) := by
  constructor
  · intro l i d a c sc n
    constructor <;>
      simp only [edit_expenses_call, edit_credits_call, CallArg.toPy_nullToOmitted]
  · intro l i
    constructor
    · have h1 : edit_expenses_call l i CallArg.omitted CallArg.omitted
          CallArg.omitted CallArg.omitted (CallArg.value "") =
          edit_expenses l i none none none none (some "") := rfl
      rw [h1, edit_expenses_rows]
      exact List.map_congr_left (fun r _ => by by_cases h : r.id = i <;> simp [h])
    · have h1 : edit_credits_call l i CallArg.omitted CallArg.omitted
          CallArg.omitted CallArg.omitted (CallArg.value "") =
          edit_credits l i none none none none (some "") := rfl
      rw [h1, edit_credits_rows]
      exact List.map_congr_left (fun r _ => by by_cases h : r.id = i <;> simp [h])

/-- C9: omitting subcategory or note in a criteria-delete call supplies the
default empty string: the call equals the fully-explicit call with "", so
only rows whose subcategory and note are exactly empty can match, and a row
with a non-empty subcategory or note always survives — the omitted argument
is never a wildcard.  Holds for both tables. -/
theorem removeByCriteria_default_empty (l : Ledger) (d : String) (a : Rat)
    (c : String) :
    (remove_expenses_call l d a c none none = remove_expenses l d a c "" "" ∧
     (remove_expenses_call l d a c none none).1.rows =
       l.rows.filter (fun r => !matchesCriteria r d a c "" "") ∧
     (∀ r ∈ l.rows, ¬(r.subcategory = "") →
        r ∈ (remove_expenses_call l d a c none none).1.rows) ∧
     (∀ r ∈ l.rows, ¬(r.note = "") →
        r ∈ (remove_expenses_call l d a c none none).1.rows)) ∧
    (remove_credits_call l d a c none none = remove_credits l d a c "" "" ∧
     (remove_credits_call l d a c none none).1.rows =
       l.rows.filter (fun r => !matchesCriteria r d a c "" "") ∧
     (∀ r ∈ l.rows, ¬(r.subcategory = "") →
        r ∈ (remove_credits_call l d a c none none).1.rows) ∧
     (∀ r ∈ l.rows, ¬(r.note = "") →
        r ∈ (remove_credits_call l d a c none none).1.rows)) := by
  have hrowsE : (remove_expenses_call l d a c none none).1.rows =
      l.rows.filter (fun r => !matchesCriteria r d a c "" "") := by
    have h1 : remove_expenses_call l d a c none none =
        remove_expenses l d a c "" "" := rfl
    rw [h1, remove_expenses_state]
  have hrowsC : (remove_credits_call l d a c none none).1.rows =
      l.rows.filter (fun r => !matchesCriteria r d a c "" "") := by
    have h1 : remove_credits_call l d a c none none =
        remove_credits l d a c "" "" := rfl
    rw [h1, remove_credits_state]
  refine ⟨⟨rfl, hrowsE, ?_, ?_⟩, ⟨rfl, hrowsC, ?_, ?_⟩⟩ <;>
  · intro r hr hne
    first
      | rw [hrowsE, List.mem_filter]
      | rw [hrowsC, List.mem_filter]
    refine ⟨hr, ?_⟩
    simp [matchesCriteria, hne]

/-- Witness for C9: a row with a non-empty subcategory survives a delete
call that omits the subcategory argument. -/
theorem removeByCriteria_default_empty_witness :
    (⟨1, "2024-01-05", 12, "Food", "Dining", ""⟩ : Row) ∈
      (remove_expenses_call ⟨[⟨1, "2024-01-05", 12, "Food", "Dining", ""⟩], 2⟩
        "2024-01-05" 12 "Food" none none).1.rows :=
  (removeByCriteria_default_empty ⟨[⟨1, "2024-01-05", 12, "Food", "Dining", ""⟩], 2⟩
      "2024-01-05" 12 "Food").1.2.2.1 ⟨1, "2024-01-05", 12, "Food", "Dining", ""⟩
    (by simp) (by decide)
